import Mathlib

/-!
Shallow embedding of the WebRTC signaling relay in src/server.js.

State: the two process-global JS Maps
  `rooms       : Map<roomId, Set<clientId>>`
  `connections : Map<clientId, {ws, roomId, connectTime, ip}>`
are modelled as insertion-ordered association lists (JS Map and Set both
iterate in insertion order, which matters because the code uses
`Array.from(room).find(...)` and `Array.from(room)[0]`).

A connection record keeps only the fields the handlers read: whether the
socket's readyState is OPEN (checked by `sendMessage`) and the stored
`roomId` (null modelled as `none`).

Each handler is translated function-by-function from src/server.js and
returns the new state together with the list of messages actually sent
(`sendMessage` delivers only when the target socket is OPEN).  One JS
subtlety is modelled explicitly: in `handleJoinRoom` the local variable
`room` aliases the Set object fetched *before* the `handleLeaveRoom` call,
so a later `room.add(clientId)` mutates that same object even when
`handleLeaveRoom` has already deleted it from the `rooms` map.
-/

/-- Connection record: `{ws, roomId}` — `wsOpen` is `ws.readyState === OPEN`. -/
structure Conn where
  wsOpen : Bool
  roomId : Option String
  deriving DecidableEq

/-- The two module-level maps of src/server.js. -/
structure ServerState where
  rooms : List (String × List String)
  connections : List (String × Conn)
  deriving DecidableEq

/-- Outbound frames produced via `sendMessage` in src/server.js. -/
inductive WireMsg where
  | connectionEstablished (clientId : String)
  | roomJoined (roomId : String) (participantCount : Nat)
  | userJoined (userId : String) (participantCount : Nat)
  | userLeft (userId : String) (participantCount : Nat)
  | offer (payload fromUserId : String)
  | answer (payload fromUserId : String)
  | iceCandidate (payload fromUserId : String)
  | error (message : String)
  | pong
  | serverShutdown
  deriving DecidableEq

/-- A delivered message: recipient client id paired with the frame body. -/
abbrev OutMsg := String × WireMsg

/-- JS `Map.get`. -/
def mapLookup {β : Type} (k : String) : List (String × β) → Option β
  | [] => none
  | (k2, v) :: rest => if k2 = k then some v else mapLookup k rest

/-- JS `Map.set`: replaces in place when the key exists, else appends. -/
def mapSet {β : Type} (k : String) (v : β) : List (String × β) → List (String × β)
  | [] => [(k, v)]
  | (k2, v2) :: rest => if k2 = k then (k, v) :: rest else (k2, v2) :: mapSet k v rest

/-- JS `Map.delete`. -/
def mapDelete {β : Type} (k : String) (m : List (String × β)) : List (String × β) :=
  m.filter (fun p => p.1 ≠ k)

/-- JS `Set.add`: no-op when present, else appends (insertion order kept). -/
def setAdd (x : String) (s : List String) : List String :=
  if x ∈ s then s else s ++ [x]

/-- JS `Set.delete`. -/
def setDelete (x : String) (s : List String) : List String :=
  s.filter (fun y => y ≠ x)

/-- src/server.js `handleLeaveRoom(clientId, roomId)`: early return when the
room is unknown; otherwise `room.delete(clientId)`, delete the room when it
became empty, else notify `Array.from(room)[0]` with `user-left`; finally
clear the client's `roomId` pointer. -/
def handleLeaveRoom (cid rid : String) (st : ServerState) : ServerState × List OutMsg :=
  match mapLookup rid st.rooms with
  | none => (st, [])
  | some room =>
    let room2 := setDelete cid room
    let roomsAndMsgs :=
      if room2.length = 0 then
        (mapDelete rid st.rooms, ([] : List OutMsg))
      else
        let notify :=
          match room2.head? with
          | some other =>
            match mapLookup other st.connections with
            | some oc => if oc.wsOpen then [(other, WireMsg.userLeft cid room2.length)] else []
            | none => []
          | none => []
        (mapSet rid room2 st.rooms, notify)
    let conns2 :=
      match mapLookup cid st.connections with
      | some c => mapSet cid { c with roomId := none } st.connections
      | none => st.connections
    ({ rooms := roomsAndMsgs.1, connections := conns2 }, roomsAndMsgs.2)

/-- The JS idiom `if (clientInfo && clientInfo.roomId) handleLeaveRoom(clientId,
clientInfo.roomId)` shared by `handleJoinRoom` and `handleDisconnect`.
JS string truthiness: the empty string is falsy. -/
def leaveCurrentRoom (cid : String) (st : ServerState) : ServerState × List OutMsg :=
  match mapLookup cid st.connections with
  | some c =>
    match c.roomId with
    | some old => if old = "" then (st, []) else handleLeaveRoom cid old st
    | none => (st, [])
  | none => (st, [])

/-- The `room.add(clientId)` step of src/server.js `handleJoinRoom`, acting on
the Set *object* fetched before the `handleLeaveRoom` call (its pre-leave
content is `room`).  When the key still maps to that object, the object's
current content is the map entry and the add is visible in the registry; when
the leave deleted the key, the object (shrunk by the leave, which removed
`cid` from it) is orphaned, so the add mutates only the orphan and the
registry is unchanged.  Returns the new registry and the object's content
after the add (the JS `room.size` reads this object). -/
def joinAddToRoom (cid rid : String) (room : List String)
    (rooms : List (String × List String)) : List (String × List String) × List String :=
  match mapLookup rid rooms with
  | some c => (mapSet rid (setAdd cid c) rooms, setAdd cid c)
  | none => (rooms, setAdd cid (setDelete cid room))

/-- src/server.js `handleJoinRoom(clientId, roomId, ws)`.  `senderOpen` is the
readyState of the `ws` argument (the sender's own socket).  The local `room`
variable aliases the Set fetched before the `handleLeaveRoom` call; the
`room.add(clientId)` on that object is `joinAddToRoom`. -/
def handleJoinRoom (cid rid : String) (senderOpen : Bool) (st : ServerState) :
    ServerState × List OutMsg :=
  if rid = "" then
    (st, if senderOpen then [(cid, WireMsg.error "Room ID is required")] else [])
  else
    let rooms1 :=
      match mapLookup rid st.rooms with
      | some _ => st.rooms
      | none => mapSet rid [] st.rooms
    let room := (mapLookup rid rooms1).getD []
    if 2 ≤ room.length then
      ({ st with rooms := rooms1 },
       if senderOpen then [(cid, WireMsg.error "Room is full (max 2 participants)")] else [])
    else
      let clientInfo := mapLookup cid st.connections
      let leaveRes := leaveCurrentRoom cid { st with rooms := rooms1 }
      let st2 := leaveRes.1
      let add := joinAddToRoom cid rid room st2.rooms
      let rooms2 := add.1
      let newContent := add.2
      let conns2 :=
        match clientInfo with
        | some c => mapSet cid { c with roomId := some rid } st2.connections
        | none => st2.connections
      let joinedMsg :=
        if senderOpen then [(cid, WireMsg.roomJoined rid newContent.length)] else []
      let notifyMsgs :=
        if newContent.length = 2 then
          match newContent.find? (fun id => id != cid) with
          | some other =>
            match mapLookup other conns2 with
            | some oc => if oc.wsOpen then [(other, WireMsg.userJoined cid newContent.length)] else []
            | none => []
          | none => []
        else []
      ({ rooms := rooms2, connections := conns2 }, leaveRes.2 ++ joinedMsg ++ notifyMsgs)

/-- src/server.js `handleOffer(clientId, roomId, offer)`: takes the first room
member different from the sender and returns at `if (!otherClientId) return`
when `find` produced no member — or the member's id is the empty string, which
is falsy in JS; otherwise forwards when that member's connection exists and
its socket is open, and returns without sending anything in every other case. -/
def handleOffer (cid rid payload : String) (st : ServerState) : List OutMsg :=
  match mapLookup rid st.rooms with
  | none => []
  | some room =>
    match room.find? (fun id => id != cid) with
    | none => []
    | some other =>
      if other = "" then []
      else
        match mapLookup other st.connections with
        | some oc => if oc.wsOpen then [(other, WireMsg.offer payload cid)] else []
        | none => []

/-- src/server.js `handleAnswer(clientId, roomId, answer)`: same routing as
`handleOffer`, including the `if (!otherClientId) return` falsiness guard. -/
def handleAnswer (cid rid payload : String) (st : ServerState) : List OutMsg :=
  match mapLookup rid st.rooms with
  | none => []
  | some room =>
    match room.find? (fun id => id != cid) with
    | none => []
    | some other =>
      if other = "" then []
      else
        match mapLookup other st.connections with
        | some oc => if oc.wsOpen then [(other, WireMsg.answer payload cid)] else []
        | none => []

/-- src/server.js `handleIceCandidate(clientId, roomId, candidate)`: same
routing as `handleOffer`, including the `if (!otherClientId) return`
falsiness guard. -/
def handleIceCandidate (cid rid payload : String) (st : ServerState) : List OutMsg :=
  match mapLookup rid st.rooms with
  | none => []
  | some room =>
    match room.find? (fun id => id != cid) with
    | none => []
    | some other =>
      if other = "" then []
      else
        match mapLookup other st.connections with
        | some oc => if oc.wsOpen then [(other, WireMsg.iceCandidate payload cid)] else []
        | none => []

/-- src/server.js connection handler: `connections.set(clientId, {ws, roomId:
null, ...})` followed by the `connection-established` greeting (the socket has
just opened, so the send succeeds). -/
def registerConnection (cid : String) (st : ServerState) : ServerState × List OutMsg :=
  ({ st with connections := mapSet cid { wsOpen := true, roomId := none } st.connections },
   [(cid, WireMsg.connectionEstablished cid)])

/-- src/server.js `handleDisconnect(clientId)`: leave the current room when
there is one, then `connections.delete(clientId)`. -/
def handleDisconnect (cid : String) (st : ServerState) : ServerState × List OutMsg :=
  let leaveRes := leaveCurrentRoom cid st
  ({ leaveRes.1 with connections := mapDelete cid leaveRes.1.connections }, leaveRes.2)

/-- One inbound event as dispatched by the `ws.on('message')` switch plus the
connection/close events. -/
inductive Op where
  | register (cid : String)
  | joinRoom (cid rid : String) (senderOpen : Bool)
  | offer (cid rid payload : String)
  | answer (cid rid payload : String)
  | iceCandidate (cid rid payload : String)
  | leaveRoom (cid rid : String)
  | ping (cid : String) (senderOpen : Bool)
  | unknown (cid ty : String) (senderOpen : Bool)
  | disconnect (cid : String)

/-- Dispatch of src/server.js: each event's effect on the shared maps and the
messages it sends. -/
def applyOp : Op → ServerState → ServerState × List OutMsg
  | Op.register cid, st => registerConnection cid st
  | Op.joinRoom cid rid o, st => handleJoinRoom cid rid o st
  | Op.offer cid rid p, st => (st, handleOffer cid rid p st)
  | Op.answer cid rid p, st => (st, handleAnswer cid rid p st)
  | Op.iceCandidate cid rid p, st => (st, handleIceCandidate cid rid p st)
  | Op.leaveRoom cid rid, st => handleLeaveRoom cid rid st
  | Op.ping cid o, st => (st, if o then [(cid, WireMsg.pong)] else [])
  | Op.unknown cid ty o, st =>
      (st, if o then [(cid, WireMsg.error ("Unknown message type: " ++ ty))] else [])
  | Op.disconnect cid, st => handleDisconnect cid st

/-- The spec invariant of C1 as a decidable check: `connection.roomId = some r`
iff the room registered under `r` contains the connection's id, in both
directions, for every registered connection. -/
def membershipConsistent (st : ServerState) : Bool :=
  (st.connections.all fun p =>
    match p.2.roomId with
    | none => true
    | some r =>
      match mapLookup r st.rooms with
      | none => false
      | some mem => mem.contains p.1) &&
  (st.rooms.all fun q => q.2.all fun cid =>
    match mapLookup cid st.connections with
    | none => true
    | some c => c.roomId == some q.1)

/-- The spec invariant of C4 as a decidable check: every registered room has
between one and two members. -/
def roomSizesOK (st : ServerState) : Bool :=
  st.rooms.all fun q => decide (1 ≤ q.2.length) && decide (q.2.length ≤ 2)

/-- Well-formedness of the association-list encoding: a JS Map holds each key
at most once. -/
abbrev KeysNodup {β : Type} (m : List (String × β)) : Prop :=
  (m.map Prod.fst).Nodup

/-- Character used by JS `Number.prototype.toString(36)` for one digit. -/
def base36Char (n : Nat) : Char :=
  if n < 10 then Char.ofNat (48 + n) else Char.ofNat (87 + n)

/-- src/server.js `generateId()`: `Math.random().toString(36).substr(2, 9)`.
The random draw is represented by the base-36 fractional digits that
`toString(36)` prints for the drawn double; `substr(2, 9)` keeps the first
nine of them.  The function is pure in the draw: no state is consulted. -/
def generateId (draw : List (Fin 36)) : String :=
  String.mk ((draw.take 9).map fun d => base36Char d.val)

/-- One registration event fed by one random draw: the id comes from
`generateId` and `connections.set` stores the fresh record under it. -/
def registerWithDraw (draw : List (Fin 36)) (st : ServerState) : ServerState × String :=
  let cid := generateId draw
  ((registerConnection cid st).1, cid)

/-- Model of the SIGTERM/SIGINT handlers of src/server.js: each handler only
calls `wss.close(() => process.exit(0))`; it contains no `sendMessage` call,
so the set of frames delivered to connections during shutdown is empty. -/
def shutdownBroadcast (_st : ServerState) : List OutMsg := []

/-- Model of the exit status passed to `process.exit` by the shutdown
handlers of src/server.js. -/
def shutdownExitStatus : Nat := 0

/-! Helper lemmas about the JS `Map`/`Set` embedding. -/

theorem mapLookup_mem {β : Type} {k : String} {m : List (String × β)} {v : β}
    (h : mapLookup k m = some v) : (k, v) ∈ m := by
  induction m with
  | nil => simp [mapLookup] at h
  | cons p rest ih =>
    rw [show p = (p.1, p.2) from rfl, mapLookup] at h
    by_cases hk : p.1 = k
    · simp [hk] at h
      subst h
      simp [← hk]
    · simp [hk] at h
      exact List.mem_cons_of_mem _ (ih h)

theorem mapLookup_none_not_mem {β : Type} {k : String} {m : List (String × β)}
    (h : mapLookup k m = none) (v : β) : (k, v) ∉ m := by
  induction m with
  | nil => simp
  | cons p rest ih =>
    rw [show p = (p.1, p.2) from rfl, mapLookup] at h
    by_cases hk : p.1 = k
    · simp [hk] at h
    · simp [hk] at h
      intro hmem
      rcases List.mem_cons.1 hmem with heq | hmem2
      · exact hk (congrArg Prod.fst heq.symm)
      · exact ih h hmem2

theorem mapLookup_mapSet_self {β : Type} (k : String) (v : β) (m : List (String × β)) :
    mapLookup k (mapSet k v m) = some v := by
  induction m with
  | nil => simp [mapSet, mapLookup]
  | cons p rest ih =>
    rw [show p = (p.1, p.2) from rfl, mapSet]
    by_cases hk : p.1 = k
    · simp [hk, mapLookup]
    · simp [hk, mapLookup, ih]

theorem mem_mapSet_nodup {β : Type} {k : String} {v : β} {p : String × β} :
    ∀ {m : List (String × β)}, KeysNodup m → p ∈ mapSet k v m →
      p = (k, v) ∨ (p ∈ m ∧ p.1 ≠ k) := by
  intro m
  induction m with
  | nil =>
    intro _ h
    simp only [mapSet, List.mem_singleton] at h
    exact Or.inl h
  | cons q rest ih =>
    intro hnd h
    obtain ⟨k2, v2⟩ := q
    simp only [KeysNodup, List.map_cons, List.nodup_cons] at hnd
    by_cases hk : k2 = k
    · subst hk
      simp only [mapSet, if_pos rfl] at h
      simp only [if_true, List.mem_cons] at h
      rcases h with heq | hmem
      · exact Or.inl heq
      · refine Or.inr ⟨List.mem_cons_of_mem _ hmem, fun hpk => hnd.1 ?_⟩
        exact hpk ▸ List.mem_map_of_mem Prod.fst hmem
    · simp only [mapSet, if_neg hk, List.mem_cons] at h
      rcases h with heq | hmem
      · exact Or.inr ⟨by simp [heq], by simp [heq, hk]⟩
      · rcases ih hnd.2 hmem with h2 | h2
        · exact Or.inl h2
        · exact Or.inr ⟨List.mem_cons_of_mem _ h2.1, h2.2⟩

theorem mem_mapDelete {β : Type} {k : String} {m : List (String × β)}
    {p : String × β} (h : p ∈ mapDelete k m) : p ∈ m :=
  List.mem_of_mem_filter h

theorem keys_mapSet {β : Type} (k : String) (v : β) (m : List (String × β)) :
    (mapSet k v m).map Prod.fst =
      if k ∈ m.map Prod.fst then m.map Prod.fst else m.map Prod.fst ++ [k] := by
  induction m with
  | nil => simp [mapSet]
  | cons q rest ih =>
    obtain ⟨k2, v2⟩ := q
    by_cases hk : k2 = k
    · subst hk
      simp [mapSet]
    · simp only [mapSet, if_neg hk, List.map_cons, ih]
      by_cases hm : k ∈ rest.map Prod.fst
      · simp [hm, Ne.symm hk]
      · simp [hm, Ne.symm hk]

theorem keysNodup_mapSet {β : Type} (k : String) (v : β) {m : List (String × β)}
    (hnd : KeysNodup m) : KeysNodup (mapSet k v m) := by
  show ((mapSet k v m).map Prod.fst).Nodup
  rw [keys_mapSet]
  by_cases hm : k ∈ m.map Prod.fst
  · simpa [hm] using hnd
  · simp only [if_neg hm]
    exact List.Nodup.append hnd (List.nodup_singleton k)
      (by simpa [List.disjoint_singleton] using hm)

theorem keysNodup_mapDelete {β : Type} (k : String) {m : List (String × β)}
    (hnd : KeysNodup m) : KeysNodup (mapDelete k m) :=
  ((List.filter_sublist m).map Prod.fst).nodup hnd

theorem setDelete_length_le (x : String) (s : List String) :
    (setDelete x s).length ≤ s.length :=
  List.length_filter_le _ s

theorem setAdd_length_le (x : String) (s : List String) :
    (setAdd x s).length ≤ s.length + 1 := by
  unfold setAdd
  by_cases h : x ∈ s <;> simp [h]

theorem setAdd_length_pos (x : String) (s : List String) :
    1 ≤ (setAdd x s).length := by
  unfold setAdd
  by_cases h : x ∈ s
  · simpa [h] using List.length_pos.2 (List.ne_nil_of_mem h)
  · simp [h]

/-- Prop form of the C4 bound: every registered room has one or two members. -/
def RoomsBounded (rooms : List (String × List String)) : Prop :=
  ∀ p ∈ rooms, 1 ≤ p.2.length ∧ p.2.length ≤ 2

/-- Intermediate bound used while `handleJoinRoom` is in flight: rooms other
than the target satisfy the C4 bound, while the target (possibly just created
empty, and already past the capacity check) has at most one member. -/
def RoomsBoundedExcept (rid : String) (rooms : List (String × List String)) : Prop :=
  ∀ p ∈ rooms, (p.1 ≠ rid → 1 ≤ p.2.length ∧ p.2.length ≤ 2) ∧ (p.1 = rid → p.2.length ≤ 1)

theorem roomSizesOK_iff (st : ServerState) : roomSizesOK st = true ↔ RoomsBounded st.rooms := by
  simp [roomSizesOK, RoomsBounded, List.all_eq_true, Bool.and_eq_true, decide_eq_true_eq]

theorem mapLookup_eq_of_mem_nodup {β : Type} {k : String} {v : β} :
    ∀ {m : List (String × β)}, KeysNodup m → (k, v) ∈ m → mapLookup k m = some v := by
  intro m
  induction m with
  | nil => intro _ h; simp at h
  | cons q rest ih =>
    intro hnd h
    obtain ⟨k2, v2⟩ := q
    simp only [KeysNodup, List.map_cons, List.nodup_cons] at hnd
    rcases List.mem_cons.1 h with heq | hmem
    · injection heq with h1 h2
      subst h1
      subst h2
      simp [mapLookup]
    · have hk : k2 ≠ k := by
        intro hkk
        exact hnd.1 (hkk ▸ List.mem_map_of_mem Prod.fst hmem)
      simp only [mapLookup, if_neg hk]
      exact ih hnd.2 hmem

/-- Every room entry surviving `handleLeaveRoom` is either untouched or is the
target room shrunk by the departing client and still non-empty. -/
theorem handleLeaveRoom_rooms_shape {cid rid : String} {st : ServerState}
    (hnd : KeysNodup st.rooms) {p : String × List String}
    (hp : p ∈ ((handleLeaveRoom cid rid st).1).rooms) :
    p ∈ st.rooms ∨
      (p.1 = rid ∧ ∃ room, mapLookup rid st.rooms = some room ∧
        p.2 = setDelete cid room ∧ p.2.length ≠ 0) := by
  simp only [handleLeaveRoom] at hp
  cases hlook : mapLookup rid st.rooms with
  | none =>
    rw [hlook] at hp
    exact Or.inl hp
  | some room =>
    rw [hlook] at hp
    by_cases hz : (setDelete cid room).length = 0
    · simp only [hz, if_pos rfl, if_true] at hp
      exact Or.inl (mem_mapDelete hp)
    · simp only [if_neg hz] at hp
      rcases mem_mapSet_nodup hnd hp with heq | ⟨hmem, _⟩
      · right
        refine ⟨by simp [heq], room, rfl, by simp [heq], by simp [heq, hz]⟩
      · exact Or.inl hmem

theorem keysNodup_handleLeaveRoom (cid rid : String) (st : ServerState)
    (hnd : KeysNodup st.rooms) : KeysNodup ((handleLeaveRoom cid rid st).1).rooms := by
  simp only [handleLeaveRoom]
  cases hlook : mapLookup rid st.rooms with
  | none => exact hnd
  | some room =>
    by_cases hz : (setDelete cid room).length = 0
    · simp only [hz, if_pos rfl, if_true]
      exact keysNodup_mapDelete rid hnd
    · simp only [if_neg hz]
      exact keysNodup_mapSet rid _ hnd

theorem roomsBoundedExcept_handleLeaveRoom (target cid rid : String) (st : ServerState)
    (hnd : KeysNodup st.rooms) (hb : RoomsBoundedExcept target st.rooms) :
    RoomsBoundedExcept target ((handleLeaveRoom cid rid st).1).rooms := by
  intro p hp
  rcases handleLeaveRoom_rooms_shape hnd hp with hmem | ⟨hkey, room, hlook, hpeq, hne⟩
  · exact hb p hmem
  · have hroom : (rid ≠ target → 1 ≤ room.length ∧ room.length ≤ 2) ∧
        (rid = target → room.length ≤ 1) := hb (rid, room) (mapLookup_mem hlook)
    have hle : p.2.length ≤ room.length := hpeq ▸ setDelete_length_le cid room
    constructor
    · intro hne2
      refine ⟨by omega, ?_⟩
      have h2 := (hroom.1 (hkey ▸ hne2)).2
      omega
    · intro heq2
      have h2 := hroom.2 (hkey ▸ heq2)
      omega

theorem roomsBounded_handleLeaveRoom (cid rid : String) (st : ServerState)
    (hnd : KeysNodup st.rooms) (hb : RoomsBounded st.rooms) :
    RoomsBounded ((handleLeaveRoom cid rid st).1).rooms := by
  intro p hp
  rcases handleLeaveRoom_rooms_shape hnd hp with hmem | ⟨_, room, hlook, hpeq, hne⟩
  · exact hb p hmem
  · have hroom : 1 ≤ room.length ∧ room.length ≤ 2 := hb (rid, room) (mapLookup_mem hlook)
    have hle : p.2.length ≤ room.length := hpeq ▸ setDelete_length_le cid room
    omega

/-- `leaveCurrentRoom` either does nothing or is one `handleLeaveRoom` call. -/
theorem leaveCurrentRoom_cases (cid : String) (st : ServerState) :
    leaveCurrentRoom cid st = (st, []) ∨
      ∃ old, leaveCurrentRoom cid st = handleLeaveRoom cid old st := by
  unfold leaveCurrentRoom
  split
  · split
    · split
      · exact Or.inl rfl
      · exact Or.inr ⟨_, rfl⟩
    · exact Or.inl rfl
  · exact Or.inl rfl

theorem keysNodup_leaveCurrentRoom (cid : String) (st : ServerState)
    (hnd : KeysNodup st.rooms) : KeysNodup ((leaveCurrentRoom cid st).1).rooms := by
  rcases leaveCurrentRoom_cases cid st with h | ⟨old, h⟩ <;> rw [h]
  · exact hnd
  · exact keysNodup_handleLeaveRoom cid old st hnd

theorem roomsBoundedExcept_leaveCurrentRoom (target cid : String) (st : ServerState)
    (hnd : KeysNodup st.rooms) (hb : RoomsBoundedExcept target st.rooms) :
    RoomsBoundedExcept target ((leaveCurrentRoom cid st).1).rooms := by
  rcases leaveCurrentRoom_cases cid st with h | ⟨old, h⟩ <;> rw [h]
  · exact hb
  · exact roomsBoundedExcept_handleLeaveRoom target cid old st hnd hb

theorem roomsBounded_leaveCurrentRoom (cid : String) (st : ServerState)
    (hnd : KeysNodup st.rooms) (hb : RoomsBounded st.rooms) :
    RoomsBounded ((leaveCurrentRoom cid st).1).rooms := by
  rcases leaveCurrentRoom_cases cid st with h | ⟨old, h⟩ <;> rw [h]
  · exact hb
  · exact roomsBounded_handleLeaveRoom cid old st hnd hb

/-- After the capacity check has passed, `joinAddToRoom` restores the full C4
bound: the target entry (at most one member before the add) gains `cid` and
ends with one or two members, every other entry is untouched. -/
theorem joinAddToRoom_ok (cid rid : String) (room : List String)
    (rooms : List (String × List String)) (hnd : KeysNodup rooms)
    (hex : RoomsBoundedExcept rid rooms) :
    KeysNodup (joinAddToRoom cid rid room rooms).1 ∧
      RoomsBounded (joinAddToRoom cid rid room rooms).1 := by
  simp only [joinAddToRoom]
  cases hlook : mapLookup rid rooms with
  | some c =>
    have hcmem : (rid, c) ∈ rooms := mapLookup_mem hlook
    have hcb : (rid ≠ rid → 1 ≤ c.length ∧ c.length ≤ 2) ∧ (rid = rid → c.length ≤ 1) :=
      hex (rid, c) hcmem
    have hclen : c.length ≤ 1 := hcb.2 rfl
    refine ⟨keysNodup_mapSet rid _ hnd, ?_⟩
    intro p hp
    rcases mem_mapSet_nodup hnd hp with heq | ⟨hmem, hne⟩
    · have h1 := setAdd_length_pos cid c
      have h2 := setAdd_length_le cid c
      subst heq
      exact ⟨show 1 ≤ (setAdd cid c).length from h1,
             show (setAdd cid c).length ≤ 2 by omega⟩
    · exact (hex p hmem).1 hne
  | none =>
    refine ⟨hnd, ?_⟩
    intro p hp
    by_cases hk : p.1 = rid
    · exfalso
      exact mapLookup_none_not_mem hlook p.2 (by rw [← hk]; exact hp)
    · exact (hex p hp).1 hk


/-- `handleJoinRoom` on a registered room that already has two members:
error reply, state unchanged. -/
theorem handleJoinRoom_full_eq (cid rid : String) (o : Bool) (st : ServerState)
    (r0 : List String) (hrid : rid ≠ "") (hlook : mapLookup rid st.rooms = some r0)
    (hfull : 2 ≤ r0.length) :
    handleJoinRoom cid rid o st =
      (st, if o then [(cid, WireMsg.error "Room is full (max 2 participants)")] else []) := by
  simp only [handleJoinRoom, if_neg hrid, hlook, Option.getD_some]
  rw [if_pos hfull]

/-- Rooms registry after a join into a registered, non-full room. -/
theorem handleJoinRoom_rooms_notfull_some (cid rid : String) (o : Bool) (st : ServerState)
    (r0 : List String) (hrid : rid ≠ "") (hlook : mapLookup rid st.rooms = some r0)
    (hfull : ¬ 2 ≤ r0.length) :
    ((handleJoinRoom cid rid o st).1).rooms =
      (joinAddToRoom cid rid r0 ((leaveCurrentRoom cid st).1).rooms).1 := by
  simp only [handleJoinRoom, if_neg hrid, hlook, Option.getD_some]
  rw [if_neg hfull]

/-- Rooms registry after a join that lazily created the room. -/
theorem handleJoinRoom_rooms_notfound (cid rid : String) (o : Bool) (st : ServerState)
    (hrid : rid ≠ "") (hlook : mapLookup rid st.rooms = none) :
    ((handleJoinRoom cid rid o st).1).rooms =
      (joinAddToRoom cid rid []
        ((leaveCurrentRoom cid { st with rooms := mapSet rid [] st.rooms }).1).rooms).1 := by
  simp only [handleJoinRoom, if_neg hrid, hlook, mapLookup_mapSet_self, Option.getD_some,
    List.length_nil]
  rw [if_neg (by omega : ¬ 2 ≤ 0)]

/-- `handleJoinRoom` preserves key uniqueness and the C4 size bound. -/
theorem rooms_ok_handleJoinRoom (cid rid : String) (o : Bool) (st : ServerState)
    (hnd : KeysNodup st.rooms) (hok : RoomsBounded st.rooms) :
    KeysNodup ((handleJoinRoom cid rid o st).1).rooms ∧
      RoomsBounded ((handleJoinRoom cid rid o st).1).rooms := by
  by_cases hrid : rid = ""
  · simp only [handleJoinRoom, if_pos hrid]
    exact ⟨hnd, hok⟩
  · cases hlook : mapLookup rid st.rooms with
    | some r0 =>
      by_cases hfull : 2 ≤ r0.length
      · rw [handleJoinRoom_full_eq cid rid o st r0 hrid hlook hfull]
        exact ⟨hnd, hok⟩
      · rw [handleJoinRoom_rooms_notfull_some cid rid o st r0 hrid hlook hfull]
        have hex1 : RoomsBoundedExcept rid st.rooms := by
          intro p hp
          refine ⟨fun _ => hok p hp, fun hkey => ?_⟩
          have hl2 : mapLookup p.1 st.rooms = some p.2 := mapLookup_eq_of_mem_nodup hnd hp
          rw [hkey, hlook] at hl2
          injection hl2 with hl3
          rw [← hl3]
          omega
        exact joinAddToRoom_ok cid rid r0 _ (keysNodup_leaveCurrentRoom cid st hnd)
          (roomsBoundedExcept_leaveCurrentRoom rid cid st hnd hex1)
    | none =>
      rw [handleJoinRoom_rooms_notfound cid rid o st hrid hlook]
      have hnd1 : KeysNodup (mapSet rid ([] : List String) st.rooms) :=
        keysNodup_mapSet rid [] hnd
      have hex1 : RoomsBoundedExcept rid (mapSet rid ([] : List String) st.rooms) := by
        intro p hp
        rcases mem_mapSet_nodup hnd hp with heq | ⟨hmem, hne⟩
        · subst heq
          exact ⟨fun hne2 => absurd rfl hne2, fun _ => Nat.zero_le 1⟩
        · exact ⟨fun _ => hok p hmem, fun hkey => absurd hkey hne⟩
      exact joinAddToRoom_ok cid rid []
        ((leaveCurrentRoom cid { st with rooms := mapSet rid [] st.rooms }).1).rooms
        (keysNodup_leaveCurrentRoom cid { st with rooms := mapSet rid [] st.rooms } hnd1)
        (roomsBoundedExcept_leaveCurrentRoom rid cid
          { st with rooms := mapSet rid [] st.rooms } hnd1 hex1)

/-! Claim theorems. -/

/-- C4: after every operation the relay processes, every room present in the
rooms registry has member count at least 1 and at most 2 — a join never pushes
a registered room above two members, and a room whose member count returns to
zero is deleted within the same operation, so no zero-member room remains
registered (the registry also never holds duplicate keys). -/
theorem room_size_invariant_preserved (op : Op) (st : ServerState)
    (hnd : KeysNodup st.rooms) (hok : roomSizesOK st = true) :
    KeysNodup ((applyOp op st).1).rooms ∧ roomSizesOK (applyOp op st).1 = true := by
  have hokP := (roomSizesOK_iff st).1 hok
  cases op with
  | register cid => exact ⟨hnd, hok⟩
  | joinRoom cid rid o =>
    have h := rooms_ok_handleJoinRoom cid rid o st hnd hokP
    exact ⟨h.1, (roomSizesOK_iff _).2 h.2⟩
  | offer cid rid p => exact ⟨hnd, hok⟩
  | answer cid rid p => exact ⟨hnd, hok⟩
  | iceCandidate cid rid p => exact ⟨hnd, hok⟩
  | leaveRoom cid rid =>
    exact ⟨keysNodup_handleLeaveRoom cid rid st hnd,
      (roomSizesOK_iff _).2 (roomsBounded_handleLeaveRoom cid rid st hnd hokP)⟩
  | ping cid o => exact ⟨hnd, hok⟩
  | unknown cid ty o => exact ⟨hnd, hok⟩
  | disconnect cid =>
    exact ⟨keysNodup_leaveCurrentRoom cid st hnd,
      (roomSizesOK_iff _).2 (roomsBounded_leaveCurrentRoom cid st hnd hokP)⟩

/-- Witness for C4 at a concrete state: one registered client joins room "r". -/
theorem room_size_invariant_preserved_witness :
    KeysNodup ((applyOp (Op.joinRoom "x" "r" true)
        ⟨[], [("x", ⟨true, none⟩)]⟩).1).rooms ∧
      roomSizesOK (applyOp (Op.joinRoom "x" "r" true) ⟨[], [("x", ⟨true, none⟩)]⟩).1 = true :=
  room_size_invariant_preserved (Op.joinRoom "x" "r" true) ⟨[], [("x", ⟨true, none⟩)]⟩
    (by decide) (by decide)

/-- State reached by the event sequence: client "x" connects, joins room "r",
then sends join-room for "r" a second time. -/
def rejoinTraceState : ServerState :=
  (applyOp (Op.joinRoom "x" "r" true)
    (applyOp (Op.joinRoom "x" "r" true)
      (applyOp (Op.register "x") ⟨[], []⟩).1).1).1

/-- C1: the bidirectional connection-room consistency invariant does NOT hold
after every operation.  After `register x; join-room r; join-room r` the
second join first runs `handleLeaveRoom`, which empties and deletes room "r",
and then `room.add(x)` mutates the orphaned Set: the connection's stored room
pointer is "r" while no room "r" is registered at all. -/
theorem rejoin_same_room_breaks_consistency :
    mapLookup "x" rejoinTraceState.connections = some ⟨true, some "r"⟩ ∧
      mapLookup "r" rejoinTraceState.rooms = none ∧
      membershipConsistent rejoinTraceState = false := by decide

/-- State reached by: "x" and "y" connect and both join room "r". -/
def fullRejoinState : ServerState :=
  (applyOp (Op.joinRoom "y" "r" true)
    (applyOp (Op.joinRoom "x" "r" true)
      (applyOp (Op.register "y")
        (applyOp (Op.register "x") ⟨[], []⟩).1).1).1).1

/-- C2: a join-room by a connection that is already a member of the target
room is NOT always accepted: when the room holds two members including the
sender, the capacity check fires first and the sender's re-join is rejected
with the room-full error (state unchanged). -/
theorem rejoin_full_room_rejected_as_full :
    mapLookup "x" fullRejoinState.connections = some ⟨true, some "r"⟩ ∧
      mapLookup "r" fullRejoinState.rooms = some ["x", "y"] ∧
      applyOp (Op.joinRoom "x" "r" true) fullRejoinState =
        (fullRejoinState, [("x", WireMsg.error "Room is full (max 2 participants)")]) := by
  decide

/-- State reached by: "x" and "y" connect, "x" joins room "r1", "y" joins
room "r2". -/
def foreignLeaveState : ServerState :=
  (applyOp (Op.joinRoom "y" "r2" true)
    (applyOp (Op.joinRoom "x" "r1" true)
      (applyOp (Op.register "y")
        (applyOp (Op.register "x") ⟨[], []⟩).1).1).1).1

/-- C3: a leave-room naming a room the sender is not in is NOT a no-op when
that room exists: "x" (a member of "r1" only) sends leave-room "r2", yet the
occupant "y" of "r2" receives a user-left notification about "x", and "x"'s
room pointer is cleared even though "x" still sits in room "r1"'s member set. -/
theorem leave_foreign_room_notifies_and_clears_pointer :
    mapLookup "x" foreignLeaveState.connections = some ⟨true, some "r1"⟩ ∧
      mapLookup "r2" foreignLeaveState.rooms = some ["y"] ∧
      (applyOp (Op.leaveRoom "x" "r2") foreignLeaveState).2 =
        [("y", WireMsg.userLeft "x" 1)] ∧
      mapLookup "x" ((applyOp (Op.leaveRoom "x" "r2") foreignLeaveState).1).connections =
        some ⟨true, none⟩ ∧
      mapLookup "r1" ((applyOp (Op.leaveRoom "x" "r2") foreignLeaveState).1).rooms =
        some ["x"] := by
  decide

/-- C5: a join-room for a room that already holds two members sends the
sender an error reply mentioning fullness and changes no state at all: the
result state is exactly the input state (room membership, the sender's prior
membership and room pointer, and every other connection included). -/
theorem join_full_room_error_no_state_change (st : ServerState) (cid rid : String)
    (mem : List String) (hrid : rid ≠ "") (hlook : mapLookup rid st.rooms = some mem)
    (hlen : mem.length = 2) :
    handleJoinRoom cid rid true st =
      (st, [(cid, WireMsg.error "Room is full (max 2 participants)")]) := by
  rw [handleJoinRoom_full_eq cid rid true st mem hrid hlook (by omega)]
  rfl

/-- Witness for C5: "z" tries to join room "r" already holding "x" and "y". -/
theorem join_full_room_error_no_state_change_witness :
    handleJoinRoom "z" "r" true
        ⟨[("r", ["x", "y"])], [("x", ⟨true, some "r"⟩), ("y", ⟨true, some "r"⟩),
          ("z", ⟨true, none⟩)]⟩ =
      (⟨[("r", ["x", "y"])], [("x", ⟨true, some "r"⟩), ("y", ⟨true, some "r"⟩),
          ("z", ⟨true, none⟩)]⟩,
        [("z", WireMsg.error "Room is full (max 2 participants)")]) :=
  join_full_room_error_no_state_change
    ⟨[("r", ["x", "y"])], [("x", ⟨true, some "r"⟩), ("y", ⟨true, some "r"⟩),
      ("z", ⟨true, none⟩)]⟩ "z" "r" ["x", "y"] (by decide) (by decide) (by decide)

theorem handleOffer_ne_sender (cid rid pl : String) (st : ServerState) (tgt : String)
    (b : WireMsg) (h : (tgt, b) ∈ handleOffer cid rid pl st) : tgt ≠ cid := by
  unfold handleOffer at h
  split at h
  · exact absurd h (List.not_mem_nil _)
  next room =>
    split at h
    · exact absurd h (List.not_mem_nil _)
    next peer hfind =>
      by_cases hpe : peer = ""
      · rw [if_pos hpe] at h
        exact absurd h (List.not_mem_nil _)
      · rw [if_neg hpe] at h
        split at h
        next oc hoc =>
          by_cases hw : oc.wsOpen = true
          · rw [if_pos hw] at h
            rw [List.mem_singleton] at h
            have hpred := List.find?_some hfind
            rw [show tgt = peer from congrArg Prod.fst h]
            simpa [bne_iff_ne] using hpred
          · rw [if_neg hw] at h
            exact absurd h (List.not_mem_nil _)
        next => exact absurd h (List.not_mem_nil _)

theorem handleAnswer_ne_sender (cid rid pl : String) (st : ServerState) (tgt : String)
    (b : WireMsg) (h : (tgt, b) ∈ handleAnswer cid rid pl st) : tgt ≠ cid := by
  unfold handleAnswer at h
  split at h
  · exact absurd h (List.not_mem_nil _)
  next room =>
    split at h
    · exact absurd h (List.not_mem_nil _)
    next peer hfind =>
      by_cases hpe : peer = ""
      · rw [if_pos hpe] at h
        exact absurd h (List.not_mem_nil _)
      · rw [if_neg hpe] at h
        split at h
        next oc hoc =>
          by_cases hw : oc.wsOpen = true
          · rw [if_pos hw] at h
            rw [List.mem_singleton] at h
            have hpred := List.find?_some hfind
            rw [show tgt = peer from congrArg Prod.fst h]
            simpa [bne_iff_ne] using hpred
          · rw [if_neg hw] at h
            exact absurd h (List.not_mem_nil _)
        next => exact absurd h (List.not_mem_nil _)

theorem handleIceCandidate_ne_sender (cid rid pl : String) (st : ServerState) (tgt : String)
    (b : WireMsg) (h : (tgt, b) ∈ handleIceCandidate cid rid pl st) : tgt ≠ cid := by
  unfold handleIceCandidate at h
  split at h
  · exact absurd h (List.not_mem_nil _)
  next room =>
    split at h
    · exact absurd h (List.not_mem_nil _)
    next peer hfind =>
      by_cases hpe : peer = ""
      · rw [if_pos hpe] at h
        exact absurd h (List.not_mem_nil _)
      · rw [if_neg hpe] at h
        split at h
        next oc hoc =>
          by_cases hw : oc.wsOpen = true
          · rw [if_pos hw] at h
            rw [List.mem_singleton] at h
            have hpred := List.find?_some hfind
            rw [show tgt = peer from congrArg Prod.fst h]
            simpa [bne_iff_ne] using hpred
          · rw [if_neg hw] at h
            exact absurd h (List.not_mem_nil _)
        next => exact absurd h (List.not_mem_nil _)

/-- Two-occupant room "r" whose second member is the connection with the
empty-string id (reachable: `generateId` returns "" when `Math.random()`
draws 0, since `(0).toString(36)` is "0" and `substr(2, 9)` is empty). -/
def emptyPeerState : ServerState :=
  ⟨[("r", ["x", ""])], [("x", ⟨true, some "r"⟩), ("", ⟨true, some "r"⟩)]⟩

/-- C6 counterexample: "x" is a member of the two-occupant room "r" whose
peer is the connection with the empty-string id — registered, transport open
— yet the falsiness guard `if (!otherClientId) return` drops the offer,
answer, and ICE candidate instead of forwarding them to that peer. -/
theorem empty_peer_id_dropped_cex :
    mapLookup "r" emptyPeerState.rooms = some ["x", ""] ∧
      List.find? (fun id => id != "x") ["x", ""] = some "" ∧
      mapLookup "" emptyPeerState.connections = some ⟨true, some "r"⟩ ∧
      handleOffer "x" "r" "sdp" emptyPeerState = [] ∧
      handleAnswer "x" "r" "sdp" emptyPeerState = [] ∧
      handleIceCandidate "x" "r" "sdp" emptyPeerState = [] := by
  decide

/-- C6 amended: for an offer, answer, or ice-candidate sent by a member of a
two-occupant room, the payload is forwarded to the peer tagged with the
sender's id when the peer's id is non-empty, its connection exists and its
transport is open; when the named room is missing, no peer is found, the
peer's id is the empty string (JS falsiness of `otherClientId`), the peer's
connection is gone, or its transport is not open, the message is silently
dropped — and in no case is anything (error or otherwise) sent back to the
sender. -/
theorem signaling_forward_or_silent_drop (st : ServerState) (cid rid pl : String) :
    (∀ room peer oc, mapLookup rid st.rooms = some room → cid ∈ room →
        room.length = 2 → room.find? (fun id => id != cid) = some peer → peer ≠ "" →
        mapLookup peer st.connections = some oc → oc.wsOpen = true →
        handleOffer cid rid pl st = [(peer, WireMsg.offer pl cid)] ∧
          handleAnswer cid rid pl st = [(peer, WireMsg.answer pl cid)] ∧
          handleIceCandidate cid rid pl st = [(peer, WireMsg.iceCandidate pl cid)]) ∧
    (mapLookup rid st.rooms = none →
        handleOffer cid rid pl st = [] ∧ handleAnswer cid rid pl st = [] ∧
          handleIceCandidate cid rid pl st = []) ∧
    (∀ room, mapLookup rid st.rooms = some room →
        room.find? (fun id => id != cid) = none →
        handleOffer cid rid pl st = [] ∧ handleAnswer cid rid pl st = [] ∧
          handleIceCandidate cid rid pl st = []) ∧
    (∀ room, mapLookup rid st.rooms = some room →
        room.find? (fun id => id != cid) = some "" →
        handleOffer cid rid pl st = [] ∧ handleAnswer cid rid pl st = [] ∧
          handleIceCandidate cid rid pl st = []) ∧
    (∀ room peer, mapLookup rid st.rooms = some room →
        room.find? (fun id => id != cid) = some peer →
        mapLookup peer st.connections = none →
        handleOffer cid rid pl st = [] ∧ handleAnswer cid rid pl st = [] ∧
          handleIceCandidate cid rid pl st = []) ∧
    (∀ room peer oc, mapLookup rid st.rooms = some room →
        room.find? (fun id => id != cid) = some peer →
        mapLookup peer st.connections = some oc → oc.wsOpen = false →
        handleOffer cid rid pl st = [] ∧ handleAnswer cid rid pl st = [] ∧
          handleIceCandidate cid rid pl st = []) ∧
    (∀ tgt b, ((tgt, b) ∈ handleOffer cid rid pl st ∨
        (tgt, b) ∈ handleAnswer cid rid pl st ∨
        (tgt, b) ∈ handleIceCandidate cid rid pl st) → tgt ≠ cid) := by
  refine ⟨?_, ?_, ?_, ?_, ?_, ?_, ?_⟩
  · intro room peer oc h1 _ _ h4 hne h5 h6
    exact ⟨by simp [handleOffer, h1, h4, hne, h5, h6],
      by simp [handleAnswer, h1, h4, hne, h5, h6],
      by simp [handleIceCandidate, h1, h4, hne, h5, h6]⟩
  · intro h1
    exact ⟨by simp [handleOffer, h1], by simp [handleAnswer, h1],
      by simp [handleIceCandidate, h1]⟩
  · intro room h1 h2
    exact ⟨by simp [handleOffer, h1, h2], by simp [handleAnswer, h1, h2],
      by simp [handleIceCandidate, h1, h2]⟩
  · intro room h1 h2
    exact ⟨by simp [handleOffer, h1, h2], by simp [handleAnswer, h1, h2],
      by simp [handleIceCandidate, h1, h2]⟩
  · intro room peer h1 h2 h3
    exact ⟨by simp [handleOffer, h1, h2, h3], by simp [handleAnswer, h1, h2, h3],
      by simp [handleIceCandidate, h1, h2, h3]⟩
  · intro room peer oc h1 h2 h3 h4
    exact ⟨by simp [handleOffer, h1, h2, h3, h4], by simp [handleAnswer, h1, h2, h3, h4],
      by simp [handleIceCandidate, h1, h2, h3, h4]⟩
  · intro tgt b hmem
    rcases hmem with h | h | h
    · exact handleOffer_ne_sender cid rid pl st tgt b h
    · exact handleAnswer_ne_sender cid rid pl st tgt b h
    · exact handleIceCandidate_ne_sender cid rid pl st tgt b h

/-- Witness for C6: in room "r" with members "x" and "y" (both open),
"x"'s offer is forwarded to "y" tagged fromUserId "x". -/
theorem signaling_forward_or_silent_drop_witness :
    handleOffer "x" "r" "sdp"
        ⟨[("r", ["x", "y"])], [("x", ⟨true, some "r"⟩), ("y", ⟨true, some "r"⟩)]⟩ =
      [("y", WireMsg.offer "sdp" "x")] :=
  ((signaling_forward_or_silent_drop
      ⟨[("r", ["x", "y"])], [("x", ⟨true, some "r"⟩), ("y", ⟨true, some "r"⟩)]⟩
      "x" "r" "sdp").1 ["x", "y"] "y" ⟨true, some "r"⟩
    (by decide) (by decide) (by decide) (by decide) (by decide) (by decide) (by decide)).1

/-- A registered room whose sole occupant is the connection with the
empty-string id. -/
def emptyMemberState : ServerState := ⟨[("r", [""])], [("", ⟨true, some "r"⟩)]⟩

/-- C8 counterexample: "x" is not in registered room "r", whose sole occupant
is the connection with the empty-string id — its transport is available — yet
nothing is forwarded: the empty id is falsy, so `if (!otherClientId) return`
drops the non-member's payload instead of injecting it. -/
theorem nonmember_empty_member_dropped_cex :
    mapLookup "r" emptyMemberState.rooms = some [""] ∧
      mapLookup "" emptyMemberState.connections = some ⟨true, some "r"⟩ ∧
      handleOffer "x" "r" "sdp" emptyMemberState = [] ∧
      handleAnswer "x" "r" "sdp" emptyMemberState = [] ∧
      handleIceCandidate "x" "r" "sdp" emptyMemberState = [] := by
  decide

/-- C8 amended: the router never checks that the sender of an offer, answer,
or ice-candidate is a member of the named room.  For any connection `cid` not
in registered room `rid`, `Array.from(room).find(id => id !== cid)` is simply
the room's first member, so whenever that member's id is non-empty (the JS
falsiness guard drops an empty-string id) and its connection exists with an
open transport, `cid`'s payload is forwarded into the room tagged
fromUserId = `cid`. -/
theorem nonmember_signaling_injected (st : ServerState) (cid rid pl : String)
    (room : List String) (first : String) (oc : Conn)
    (hlook : mapLookup rid st.rooms = some room)
    (hnm : cid ∉ room)
    (hfst : room.head? = some first)
    (hne0 : first ≠ "")
    (hoc : mapLookup first st.connections = some oc)
    (hopen : oc.wsOpen = true) :
    handleOffer cid rid pl st = [(first, WireMsg.offer pl cid)] ∧
      handleAnswer cid rid pl st = [(first, WireMsg.answer pl cid)] ∧
      handleIceCandidate cid rid pl st = [(first, WireMsg.iceCandidate pl cid)] := by
  have hfind : room.find? (fun id => id != cid) = some first := by
    cases room with
    | nil => simp at hfst
    | cons a t =>
      simp only [List.head?_cons, Option.some.injEq] at hfst
      subst hfst
      have hne : (a != cid) = true := by
        rw [bne_iff_ne]
        intro hac
        exact hnm (hac ▸ List.mem_cons_self a t)
      simp [List.find?, hne]
  exact ⟨by simp [handleOffer, hlook, hfind, hne0, hoc, hopen],
    by simp [handleAnswer, hlook, hfind, hne0, hoc, hopen],
    by simp [handleIceCandidate, hlook, hfind, hne0, hoc, hopen]⟩

/-- Witness for C8: "x" is in no room, room "r" holds only "y" (open); "x"'s
offer for "r" is delivered to "y" tagged fromUserId "x". -/
theorem nonmember_signaling_injected_witness :
    handleOffer "x" "r" "sdp" ⟨[("r", ["y"])], [("y", ⟨true, some "r"⟩)]⟩ =
      [("y", WireMsg.offer "sdp" "x")] :=
  (nonmember_signaling_injected ⟨[("r", ["y"])], [("y", ⟨true, some "r"⟩)]⟩
    "x" "r" "sdp" ["y"] "y" ⟨true, some "r"⟩
    (by decide) (by decide) (by decide) (by decide) (by decide) (by decide)).1

/-- C9 counterexample: room ids are NOT trimmed.  The whitespace-only room id
" " passes the JS falsiness check `!roomId`, so the join is accepted: room " "
is created with member "x" and "x" receives a normal room-joined reply rather
than an error. -/
theorem whitespace_roomid_creates_room_cex :
    mapLookup " " ((applyOp (Op.joinRoom "x" " " true)
          (applyOp (Op.register "x") ⟨[], []⟩).1).1).rooms = some ["x"] ∧
      (applyOp (Op.joinRoom "x" " " true) (applyOp (Op.register "x") ⟨[], []⟩).1).2 =
        [("x", WireMsg.roomJoined " " 1)] := by
  decide

/-- C9 amended: a join-room whose room id is missing or the empty string is
rejected with an error reply to the sender before any mutation; room ids are
stored exactly as the client supplied them, with no trimming, so any
non-empty id — a whitespace-only one included — is accepted and lazily
creates the room with the joiner as its sole member. -/
theorem empty_roomid_rejected_untrimmed_stored (st : ServerState) (cid rid : String)
    (o w : Bool) (hrid : rid ≠ "") (hlook : mapLookup rid st.rooms = none)
    (hconn : mapLookup cid st.connections = some ⟨w, none⟩) :
    handleJoinRoom cid "" true st = (st, [(cid, WireMsg.error "Room ID is required")]) ∧
      mapLookup rid ((handleJoinRoom cid rid o st).1).rooms = some [cid] := by
  constructor
  · simp [handleJoinRoom]
  · rw [handleJoinRoom_rooms_notfound cid rid o st hrid hlook]
    have hleave : leaveCurrentRoom cid { st with rooms := mapSet rid [] st.rooms } =
        ({ st with rooms := mapSet rid [] st.rooms }, []) := by
      simp [leaveCurrentRoom, hconn]
    rw [hleave]
    simp [joinAddToRoom, mapLookup_mapSet_self, setAdd]

/-- Witness for C9: concrete sender "x" with no room, target id " ". -/
theorem empty_roomid_rejected_untrimmed_stored_witness :
    handleJoinRoom "x" "" true ⟨[], [("x", ⟨true, none⟩)]⟩ =
        (⟨[], [("x", ⟨true, none⟩)]⟩, [("x", WireMsg.error "Room ID is required")]) ∧
      mapLookup " "
        ((handleJoinRoom "x" " " true ⟨[], [("x", ⟨true, none⟩)]⟩).1).rooms = some ["x"] :=
  empty_roomid_rejected_untrimmed_stored ⟨[], [("x", ⟨true, none⟩)]⟩ "x" " " true true
    (by decide) (by decide) (by decide)

theorem base36Char_inj : ∀ a b : Fin 36, base36Char a.val = base36Char b.val → a = b := by
  decide

theorem map_base36_inj : ∀ l1 l2 : List (Fin 36),
    (l1.map fun d => base36Char d.val) = (l2.map fun d => base36Char d.val) → l1 = l2 := by
  intro l1
  induction l1 with
  | nil =>
    intro l2 h
    cases l2 with
    | nil => rfl
    | cons b t2 => simp at h
  | cons a t ih =>
    intro l2 h
    cases l2 with
    | nil => simp at h
    | cons b t2 =>
      simp only [List.map_cons, List.cons.injEq] at h
      rw [base36Char_inj a b h.1, ih t2 h.2]

/-- A concrete random draw (its base-36 fractional digits). -/
def exampleDraw : List (Fin 36) := [4, 10, 35, 0, 1, 2, 3, 4, 5]

/-- C10 counterexample: connection ids are NOT unique over every sequence of
random draws.  `generateId` is a pure function of the draw and nothing checks
for reuse, so two registration events fed the same draw allocate the same id
— and the second `connections.set` then overwrites the first entry, leaving a
single stored connection after two registrations. -/
theorem duplicate_draw_duplicate_id_cex :
    (registerWithDraw exampleDraw ⟨[], []⟩).2 =
        (registerWithDraw exampleDraw (registerWithDraw exampleDraw ⟨[], []⟩).1).2 ∧
      ((registerWithDraw exampleDraw
          (registerWithDraw exampleDraw ⟨[], []⟩).1).1).connections.length = 1 := by
  decide

/-- C10 amended: the id allocated at registration is a deterministic function
of the random draw with no process-level uniqueness check: two registrations
receive different ids exactly when their draws differ within the first nine
base-36 fractional digits kept by `substr(2, 9)`; repeated draws reuse ids. -/
theorem generateId_eq_iff_first_digits (d1 d2 : List (Fin 36)) :
    generateId d1 = generateId d2 ↔ d1.take 9 = d2.take 9 := by
  constructor
  · intro h
    have hdata : ((d1.take 9).map fun d => base36Char d.val) =
        ((d2.take 9).map fun d => base36Char d.val) := congrArg String.data h
    exact map_base36_inj _ _ hdata
  · intro h
    unfold generateId
    rw [h]

/-- C7 counterexample: with an open connection "x" registered, a termination
signal delivers no server-shutdown frame to it — the handler sends nothing. -/
theorem shutdown_sends_no_broadcast_cex :
    shutdownBroadcast ⟨[], [("x", ⟨true, none⟩)]⟩ = [] ∧
      ("x", WireMsg.serverShutdown) ∉ shutdownBroadcast ⟨[], [("x", ⟨true, none⟩)]⟩ := by
  decide

/-- C7 amended: on SIGTERM or SIGINT the server shuts the WebSocket server
down and exits with status 0, broadcasting nothing: no connection receives a
server-shutdown (or any other) frame during shutdown. -/
theorem shutdown_no_broadcast_exit_zero (st : ServerState) :
    shutdownBroadcast st = [] ∧ shutdownExitStatus = 0 :=
  ⟨rfl, rfl⟩
